import Mathlib

/-!
Verification of the gasPriceTracker ingestion, buffering, backfill and
range-query subsystem against its natural-language specification.

The repository (src/server.js, src/buffer.js) is embedded shallowly:

* the SQLite table `gas_prices` (blockNumber INTEGER PRIMARY KEY, timestamp
  TEXT NOT NULL, six optional REAL columns) becomes a `List SRow`;
* the three SQL write statements used by the code are modelled with SQLite's
  documented semantics: `INSERT OR REPLACE` (delete the conflicting row,
  insert the new one), `INSERT OR IGNORE` (no-op on a primary-key conflict)
  and `UPDATE ... WHERE blockNumber = ?`;
* JavaScript `Map` objects (BlockBuffer.buffer / writeBuffer) become
  insertion-ordered association lists; `Map.set` replaces the value of an
  existing key in place and appends a fresh key;
* JavaScript numbers for heights are `Int`, REAL price columns are `ℚ`;
  `x || null` on an optional numeric field maps both absence and `0` to
  NULL, which `jsOrNull` reproduces; `s || fallback` on a string treats the
  empty string as falsy, which `jsOrString` reproduces;
* `Math.min(...[])` / `Math.max(...[])` return `Infinity` / `-Infinity`;
  the inductive `JsNumber` carries those two sentinels next to finite values;
* `Date.now()` values and ISO timestamp rendering are passed in explicitly
  (`now : Int`, `iso : Int → String`), making every timer-driven code path a
  pure function of its inputs.
-/

/-- One row of the `gas_prices` table (src/server.js lines 48-61):
`blockNumber INTEGER PRIMARY KEY, timestamp TEXT NOT NULL`, and six
nullable REAL columns. -/
structure SRow where
  blockNumber : Int
  timestamp : String
  baseFeePerGas : Option ℚ := none
  confidence50 : Option ℚ := none
  confidence70 : Option ℚ := none
  confidence90 : Option ℚ := none
  confidence99 : Option ℚ := none
  seiGasPrice : Option ℚ := none
deriving DecidableEq

/-- The partial record handed to `BlockBuffer.addBlock` and staged in
`writeBuffer` (src/buffer.js lines 21-31): whichever of the optional fields
the producing poll loop knew. `timestamp` is a string; the empty string
stands for a missing/falsy timestamp (JS `blockData.timestamp ||
new Date().toISOString()`). -/
structure BlockData where
  blockNumber : Int
  timestamp : String := ""
  baseFeePerGas : Option ℚ := none
  confidence50 : Option ℚ := none
  confidence70 : Option ℚ := none
  confidence90 : Option ℚ := none
  confidence99 : Option ℚ := none
  seiGasPrice : Option ℚ := none
deriving DecidableEq

/-- JS `x || null` on an optional numeric value: absent stays NULL and a
present `0` is also coerced to NULL (falsy). Used by
`BlockBuffer.flushToDatabase` for the confidence and seiGasPrice bindings. -/
def jsOrNull (o : Option ℚ) : Option ℚ :=
  match o with
  | some x => if x = 0 then none else some x
  | none => none

/-- JS `s || fallback` on a string: the empty string is falsy. -/
def jsOrString (s fallback : String) : String :=
  if s = "" then fallback else s

/-- `true` iff the table already holds a row for height `h`. -/
def hasHeight (db : List SRow) (h : Int) : Bool :=
  db.any (fun r => r.blockNumber = h)

/-- `SELECT * FROM gas_prices WHERE blockNumber = h LIMIT 1`. -/
def findRow (db : List SRow) (h : Int) : Option SRow :=
  db.find? (fun r => r.blockNumber = h)

/-- SQLite `INSERT OR REPLACE`: on a primary-key conflict the old row is
removed and the complete new row takes its place (every column is bound by
the statement in src/buffer.js lines 52-58, so unsupplied fields arrive as
NULL); with no conflict the row is appended. -/
def insertOrReplace (db : List SRow) (r : SRow) : List SRow :=
  if hasHeight db r.blockNumber then
    db.map (fun q => if q.blockNumber = r.blockNumber then r else q)
  else
    db ++ [r]

/-- SQLite `INSERT OR IGNORE`: a primary-key conflict leaves the table
untouched (src/server.js lines 127-130 and 181-196). -/
def insertOrIgnore (db : List SRow) (r : SRow) : List SRow :=
  if hasHeight db r.blockNumber then db else db ++ [r]

/-- `UPDATE gas_prices SET seiGasPrice = ? WHERE blockNumber = ?`
(src/server.js lines 240-244). -/
def updateSeiGasPrice (db : List SRow) (price : ℚ) (h : Int) : List SRow :=
  db.map (fun q => if q.blockNumber = h then { q with seiGasPrice := some price } else q)

/-- The heights column of the table, in storage order. -/
def heights (db : List SRow) : List Int :=
  db.map (fun r => r.blockNumber)

/-- The parameter binding `BlockBuffer.flushToDatabase` attempts for one
staged record (src/buffer.js lines 62-71): `blockNumber`, `timestamp` and
`baseFeePerGas` are bound raw, the four confidences and `seiGasPrice` go
through `|| null`. better-sqlite3 accepts only numbers, strings, bigints,
buffers and null — binding the JS `undefined` of an absent `baseFeePerGas`
throws a TypeError, so for a record without that field the binding fails
(`none`) instead of producing a row; the other optional fields cannot fail
because `|| null` turns their absence into NULL. -/
def rowOfBlock (b : BlockData) : Option SRow :=
  match b.baseFeePerGas with
  | none => none
  | some fee =>
    some
      { blockNumber := b.blockNumber
        timestamp := b.timestamp
        baseFeePerGas := some fee
        confidence50 := jsOrNull b.confidence50
        confidence70 := jsOrNull b.confidence70
        confidence90 := jsOrNull b.confidence90
        confidence99 := jsOrNull b.confidence99
        seiGasPrice := jsOrNull b.seiGasPrice }

/-- Whether every raw binding of a staged record is defined — exactly when
`baseFeePerGas` is present (the one raw-bound optional field). -/
def bindableBlock (b : BlockData) : Bool :=
  b.baseFeePerGas.isSome

/-- Whether the whole staged batch binds without a thrown TypeError. One
un-bindable record aborts the entire transaction (the throw propagates out of
the `db.transaction` body and SQLite rolls back). -/
def batchBindable (wb : List (Int × BlockData)) : Bool :=
  wb.all (fun p => bindableBlock p.2)

/-- Placeholder row inserted by backfill for a missed height
(src/server.js lines 127-130): height, fetched timestamp, seiGasPrice NULL,
every other column absent from the column list, hence NULL. -/
def placeholderRow (h : Int) (ts : String) : SRow :=
  { blockNumber := h, timestamp := ts }

-- ## BlockBuffer (src/buffer.js)

/-- An entry of `BlockBuffer.buffer`: the spread of the incoming record with
a defaulted `timestamp` plus the `addedAt` eviction clock. -/
structure BufEntry where
  data : BlockData
  addedAt : Int
deriving DecidableEq

/-- State of a `BlockBuffer` instance: the two JS Maps keyed by height, the
SQLite handle's table, and `lastWrite`. -/
structure BufState where
  buffer : List (Int × BufEntry) := []
  writeBuffer : List (Int × BlockData) := []
  db : List SRow := []
  lastWrite : Int := 0
deriving DecidableEq

/-- JS `Map.set`: replace the value stored at an existing key (keeping its
insertion position), otherwise append the new pair. -/
def mapSet {α : Type} (m : List (Int × α)) (k : Int) (v : α) : List (Int × α) :=
  if m.any (fun p => p.1 = k) then
    m.map (fun p => if p.1 = k then (k, v) else p)
  else
    m ++ [(k, v)]

/-- JS `Map.get`. -/
def mapGet {α : Type} (m : List (Int × α)) (k : Int) : Option α :=
  (m.find? (fun p => p.1 = k)).map (fun p => p.2)

/-- `BlockBuffer.addBlock` (src/buffer.js lines 21-31): `buffer.set` stores a
fresh object spread from `blockData` with `timestamp` defaulted and
`addedAt := now`; `writeBuffer.set` stores the raw record. Neither `set`
merges with a previously stored entry for the same height. -/
def addBlock (st : BufState) (b : BlockData) (now : Int) (nowTs : String) : BufState :=
  { st with
    buffer := mapSet st.buffer b.blockNumber
      ⟨{ b with timestamp := jsOrString b.timestamp nowTs }, now⟩
    writeBuffer := mapSet st.writeBuffer b.blockNumber b }

/-- Apply the batched `INSERT OR REPLACE` statement to every staged record in
insertion order — the body of the `db.transaction` in
`BlockBuffer.flushToDatabase` (src/buffer.js lines 60-73). -/
def applyBatch (db : List SRow) (wb : List (Int × BlockData)) : List SRow :=
  wb.foldl
    (fun d p =>
      match rowOfBlock p.2 with
      | some r => insertOrReplace d r
      | none => d)
    db

/-- `BlockBuffer.flushToDatabase` (src/buffer.js lines 49-83). `txOk` is
whether the environment lets the wrapped transaction commit (storage
availability); independently, a staged record whose `baseFeePerGas` is absent
makes `batchInsert.run` throw on the undefined binding, so such a batch never
commits whatever the environment does. SQLite transactions are
all-or-nothing and the `catch` branch performs no state change, so on either
kind of failure both the table and `writeBuffer` are untouched, while on
success the whole batch lands and `writeBuffer.clear()` runs. An empty
`writeBuffer` short-circuits. -/
def flushToDatabase (st : BufState) (txOk : Bool) (now : Int) : BufState :=
  if st.writeBuffer.isEmpty then st
  else if txOk && batchBindable st.writeBuffer then
    { st with db := applyBatch st.db st.writeBuffer, writeBuffer := [], lastWrite := now }
  else st

/-- A JavaScript number as far as `getBufferStats` needs it: the two infinite
sentinels produced by `Math.min()` / `Math.max()` of an empty spread, or a
finite (integer) value. -/
inductive JsNumber where
  | posInf
  | negInf
  | num (x : Int)
deriving DecidableEq

/-- `Math.min(...keys)`: `Infinity` when the key list is empty, else the
least key. -/
def mathMin (l : List Int) : JsNumber :=
  match l with
  | [] => JsNumber.posInf
  | x :: xs => JsNumber.num (xs.foldl min x)

/-- `Math.max(...keys)`: `-Infinity` when the key list is empty, else the
greatest key. -/
def mathMax (l : List Int) : JsNumber :=
  match l with
  | [] => JsNumber.negInf
  | x :: xs => JsNumber.num (xs.foldl max x)

/-- The object returned by `BlockBuffer.getBufferStats` (src/buffer.js
lines 85-93). -/
structure BufferStats where
  bufferSize : Nat
  writeBufferSize : Nat
  oldestBlock : JsNumber
  newestBlock : JsNumber
  lastWrite : Int
deriving DecidableEq

/-- `BlockBuffer.getBufferStats` (src/buffer.js lines 85-93). -/
def getBufferStats (st : BufState) : BufferStats :=
  { bufferSize := st.buffer.length
    writeBufferSize := st.writeBuffer.length
    oldestBlock := mathMin (st.buffer.map (fun p => p.1))
    newestBlock := mathMax (st.buffer.map (fun p => p.1))
    lastWrite := st.lastWrite }

-- ## Metrics and the authoritative poll loop (src/server.js)

/-- The module-level `metrics` object (src/server.js lines 29-35). -/
structure Metrics where
  missedBlocks : Int := 0
  nullValues : Int := 0
  apiErrors : Int := 0
  lastProcessedBlock : Int := 0
  lastSync : Option Int := none
deriving DecidableEq

/-- `updateMetrics` (src/server.js lines 94-101). The gap test reads the
module-level `lastProcessedBlock` variable (`globalLast` here), which is
distinct from the `metrics.lastProcessedBlock` field it assigns. -/
def updateMetrics (m : Metrics) (globalLast : Int) (blockHeight : Int)
    (value : Option ℚ) (now : Int) : Metrics :=
  { m with
    missedBlocks := m.missedBlocks +
      (if blockHeight > globalLast + 1 then blockHeight - globalLast - 1 else 0)
    nullValues := m.nullValues + (if value = none then 1 else 0)
    lastProcessedBlock := blockHeight
    lastSync := some now }

/-- Outcome of the per-height `eth_getBlockByNumber` lookup issued during
backfill: a block with its decoded timestamp, a well-formed response with no
`result` (silently skipped), or a thrown request error (counted in
`apiErrors`). -/
inductive RpcResult where
  | found (ts : String)
  | missing
  | failed
deriving DecidableEq

/-- The heights strictly between `fromB` and `toB` in ascending order — the
`for (let height = fromBlock + 1; height < toBlock; height++)` loop of
`backfillMissedBlocks` (src/server.js lines 141-143). -/
def missedRange (fromB toB : Int) : List Int :=
  (List.range (toB - fromB - 1).toNat).map (fun (i : Nat) => fromB + 1 + (i : Int))

/-- One height of `processBlockChunk` (src/server.js lines 115-137): a found
block is inserted as a placeholder with `INSERT OR IGNORE`, a missing result
does nothing, a request error increments `apiErrors`. The accumulator pairs
the table with the number of `apiErrors` increments. The chunked
`Promise.all` fan-out touches distinct heights with commuting operations, so
the final state equals this sequential fold. -/
def backfillStep (lookup : Int → RpcResult) (acc : List SRow × Int) (h : Int) :
    List SRow × Int :=
  match lookup h with
  | RpcResult.found ts => (insertOrIgnore acc.1 (placeholderRow h ts), acc.2)
  | RpcResult.missing => acc
  | RpcResult.failed => (acc.1, acc.2 + 1)

/-- `backfillMissedBlocks` of the unclamped variant (src/server.js
lines 139-151): walk every height strictly between `fromBlock` and
`toBlock`. -/
def backfillMissedBlocks (lookup : Int → RpcResult) (db : List SRow)
    (fromBlock toBlock : Int) : List SRow × Int :=
  (missedRange fromBlock toBlock).foldl (backfillStep lookup) (db, 0)

/-- The clamp of the 10000-block variant of `backfillMissedBlocks`
(src/server.js lines 526-550): a gap wider than 10000 blocks rebases
`fromBlock` to `toBlock - 10000` before the walk; nothing else changes and no
metric is touched by the clamp itself. -/
def clampFromBlock (fromBlock toBlock : Int) : Int :=
  if toBlock - fromBlock > 10000 then toBlock - 10000 else fromBlock

/-- `backfillMissedBlocks` of the clamped variant (src/server.js
lines 526-550). -/
def backfillMissedBlocksClamped (lookup : Int → RpcResult) (db : List SRow)
    (fromBlock toBlock : Int) : List SRow × Int :=
  backfillMissedBlocks lookup db (clampFromBlock fromBlock toBlock) toBlock

/-- State threaded through one successful `pollSeiGasPrice` cycle: the table,
the metrics object and the module-level `lastProcessedBlock`. -/
structure PollState where
  db : List SRow := []
  metrics : Metrics := {}
  lastProcessedBlock : Int := 0
deriving DecidableEq

/-- The body of a successful `pollSeiGasPrice` (src/server.js lines 215-261,
same shape in the clamped variant at lines 614-660), given the decoded
`currentBlock` and `gasPriceGwei`, the backfill lookup oracle, and whether
`DB_WRITE_INTERVAL` has elapsed. `clamped` selects which
`backfillMissedBlocks` variant the file defines. Steps, in program order:
conditional backfill, conditional `UPDATE` of `seiGasPrice`, `updateMetrics`
(reading the still-unchanged module variable), then
`lastProcessedBlock = currentBlock`. -/
def pollSeiStep (clamped : Bool) (st : PollState) (currentBlock : Int)
    (gasPriceGwei : ℚ) (lookup : Int → RpcResult) (dbWriteDue : Bool)
    (now : Int) : PollState :=
  let bf :=
    if currentBlock > st.lastProcessedBlock + 1 then
      if clamped then
        backfillMissedBlocksClamped lookup st.db st.lastProcessedBlock currentBlock
      else
        backfillMissedBlocks lookup st.db st.lastProcessedBlock currentBlock
    else (st.db, 0)
  let db2 := if dbWriteDue then updateSeiGasPrice bf.1 gasPriceGwei currentBlock else bf.1
  let m1 := { st.metrics with apiErrors := st.metrics.apiErrors + bf.2 }
  { db := db2
    metrics := updateMetrics m1 st.lastProcessedBlock currentBlock (some gasPriceGwei) now
    lastProcessedBlock := currentBlock }

-- ## Record Store write operations as a transition system (claim C3)

/-- Every kind of write the repository issues against `gas_prices`:
the predicted-feed `INSERT OR IGNORE` (src/server.js lines 181-196), the
actual-feed `UPDATE` (lines 240-244), the backfill placeholder
`INSERT OR IGNORE` (lines 127-130), and a batched flush of
`INSERT OR REPLACE` statements (src/buffer.js lines 52-73). -/
inductive DbOp where
  | predictedInsert (b : BlockData)
  | actualUpdate (price : ℚ) (h : Int)
  | backfillInsert (h : Int) (ts : String)
  | flushBatch (batch : List BlockData)
deriving DecidableEq

/-- Apply one write operation to the table. A record whose raw binding is
undefined throws before reaching SQLite: the predicted insert is then skipped
(the poll loop's catch absorbs it) and a flush transaction containing such a
record rolls back wholesale. -/
def applyDbOp (db : List SRow) (op : DbOp) : List SRow :=
  match op with
  | DbOp.predictedInsert b =>
    match rowOfBlock b with
    | some r => insertOrIgnore db r
    | none => db
  | DbOp.actualUpdate price h => updateSeiGasPrice db price h
  | DbOp.backfillInsert h ts => insertOrIgnore db (placeholderRow h ts)
  | DbOp.flushBatch batch =>
    if batch.all (fun b => bindableBlock b) then
      batch.foldl
        (fun d b =>
          match rowOfBlock b with
          | some r => insertOrReplace d r
          | none => d)
        db
    else db

/-- Apply a sequence of write operations in order. -/
def applyDbOps (db : List SRow) (ops : List DbOp) : List SRow :=
  ops.foldl applyDbOp db

-- ## Range query and sampler (src/server.js lines 263-335, 678-734, 917-985)

/-- The `timeRanges` lookup shared by all three chart-data handlers: the six
recognized timeframes mapped to their width in milliseconds; anything else is
`undefined`. -/
def timeRangesMs (range : String) : Option Int :=
  if range = "1h" then some (60 * 60 * 1000)
  else if range = "6h" then some (6 * 60 * 60 * 1000)
  else if range = "12h" then some (12 * 60 * 60 * 1000)
  else if range = "24h" then some (24 * 60 * 60 * 1000)
  else if range = "72h" then some (72 * 60 * 60 * 1000)
  else if range = "7d" then some (7 * 24 * 60 * 60 * 1000)
  else none

/-- The `samplingRates` table of `sampleData` (src/server.js lines 264-272). -/
def samplingRates (timeframe : String) : Option Nat :=
  if timeframe = "1h" then some 1
  else if timeframe = "6h" then some 6
  else if timeframe = "12h" then some 12
  else if timeframe = "24h" then some 24
  else if timeframe = "72h" then some 72
  else if timeframe = "7d" then some 168
  else none

/-- The stride `sampleData` ends up using: `samplingRates[timeframe] || 1`. -/
def sampleRate (timeframe : String) : Nat :=
  (samplingRates timeframe).getD 1

/-- One point of the serialized series. The actual-price series reuses the
field name `confidence99` for `seiGasPrice`, exactly as the `.map` in each
handler does. -/
structure Point where
  blockNumber : Int
  timestamp : String
  confidence99 : Option ℚ
deriving DecidableEq

/-- `sampleData` (src/server.js lines 263-276): keep the elements whose index
is a multiple of the timeframe's rate. -/
def sampleData (data : List Point) (timeframe : String) : List Point :=
  (data.enum.filter (fun p => p.1 % sampleRate timeframe = 0)).map Prod.snd

/-- Predicted-series point of a stored row. -/
def predPoint (r : SRow) : Point :=
  ⟨r.blockNumber, r.timestamp, r.confidence99⟩

/-- Actual-series point of a stored row (`confidence99: r.seiGasPrice`). -/
def actualPoint (r : SRow) : Point :=
  ⟨r.blockNumber, r.timestamp, r.seiGasPrice⟩

/-- Insert a row into a list sorted by ascending `blockNumber`. -/
def orderedInsert (r : SRow) (l : List SRow) : List SRow :=
  match l with
  | [] => [r]
  | x :: xs => if r.blockNumber ≤ x.blockNumber then r :: x :: xs else x :: orderedInsert r xs

/-- `ORDER BY blockNumber ASC`. -/
def sortByHeight (l : List SRow) : List SRow :=
  l.foldr orderedInsert []

/-- `timestamp >= cutoff` on TEXT columns: SQLite compares text
lexicographically, which on ISO-8601 strings is chronological order. -/
def tsGe (ts cutoff : String) : Bool :=
  !(decide (ts < cutoff))

/-- `timestamp < upper` on TEXT columns. -/
def tsLtB (ts upper : String) : Bool :=
  decide (ts < upper)

/-- Response of the caching chart-data handlers (src/server.js lines 279-335
and 678-734): the cutoff duration actually used for the SQL filter, and the
two sampled series. These handlers have no input-validation branch. -/
structure AbResponse where
  usedDurationMs : Int
  predictedData : List Point
  seiGasPriceData : List Point
deriving DecidableEq

/-- The chart-data handler of the two caching server variants (src/server.js
lines 279-335, identically at 678-734): `timeRanges[range] ||
timeRanges['24h']` silently substitutes the 24h width for an unrecognized
range, the row query is `WHERE timestamp >= ? ORDER BY blockNumber ASC LIMIT
10000`, and `sampleData` is applied unless `range` is `1h`. -/
def chartDataAB (iso : Int → String) (db : List SRow) (now : Int)
    (range : String) : AbResponse :=
  let dur := (timeRangesMs range).getD (24 * 60 * 60 * 1000)
  let timeFilter := iso (now - dur)
  let rows := (sortByHeight (db.filter (fun r => tsGe r.timestamp timeFilter))).take 10000
  let predicted := rows.map predPoint
  let actual := rows.map actualPoint
  if range = "1h" then
    ⟨dur, predicted, actual⟩
  else
    ⟨dur, sampleData predicted range, sampleData actual range⟩

/-- Predicted-series point of a live buffer entry (the 1h merge path maps the
raw buffered objects with the same field accesses as stored rows). -/
def predPointE (e : BufEntry) : Point :=
  ⟨e.data.blockNumber, e.data.timestamp, e.data.confidence99⟩

/-- Actual-series point of a live buffer entry. -/
def actualPointE (e : BufEntry) : Point :=
  ⟨e.data.blockNumber, e.data.timestamp, e.data.seiGasPrice⟩

/-- Insert a buffer entry into a list sorted by ascending height. -/
def orderedInsertE (e : BufEntry) (l : List BufEntry) : List BufEntry :=
  match l with
  | [] => [e]
  | x :: xs =>
    if e.data.blockNumber ≤ x.data.blockNumber then e :: x :: xs
    else x :: orderedInsertE e xs

/-- `BlockBuffer.getRecentBlocks` (src/buffer.js lines 33-38): buffer values
younger than the window, sorted ascending by `blockNumber`. -/
def getRecentBlocks (st : BufState) (now : Int) (timeWindow : Int) : List BufEntry :=
  ((st.buffer.map (fun p => p.2)).filter (fun e => e.addedAt ≥ now - timeWindow)).foldr
    orderedInsertE []

/-- Response of the BlockBuffer-variant chart-data handler (src/server.js
lines 917-985): the only handler with an input-validation branch
(`return res.status(400)` for an unrecognized range); the 1h path merges the
Record Store slice below the buffer's oldest timestamp with the live buffer
and attaches the buffer statistics. -/
inductive CResponse where
  | badRequest
  | okResp (predictedData seiGasPriceData : List Point) (bufferStats : Option BufferStats)
deriving DecidableEq

/-- The BlockBuffer-variant chart-data handler (src/server.js lines 917-985).
An unrecognized `range` is rejected with a 400 before any read happens; `1h`
merges `getRecentBlocks(15000)` with stored rows whose timestamp lies below
the oldest recent entry's; longer ranges read the store directly. No
sampling and no row limit exist in this variant. -/
def chartDataC (iso : Int → String) (st : BufState) (now : Int)
    (range : String) : CResponse :=
  match timeRangesMs range with
  | none => CResponse.badRequest
  | some dur =>
    if range = "1h" then
      let recent := getRecentBlocks st now 15000
      let timeFilter := iso (now - dur)
      let upper :=
        match recent.head? with
        | some e => e.data.timestamp
        | none => iso now
      let dbData := sortByHeight
        (st.db.filter (fun r => tsGe r.timestamp timeFilter && tsLtB r.timestamp upper))
      CResponse.okResp
        (dbData.map predPoint ++ recent.map predPointE)
        (dbData.map actualPoint ++ recent.map actualPointE)
        (some (getBufferStats st))
    else
      let timeFilter := iso (now - dur)
      let rows := sortByHeight (st.db.filter (fun r => tsGe r.timestamp timeFilter))
      CResponse.okResp (rows.map predPoint) (rows.map actualPoint) none

/-- Length of the predicted series of a BlockBuffer-variant response
(0 for a rejected request). -/
def cPredLength (resp : CResponse) : Nat :=
  match resp with
  | CResponse.badRequest => 0
  | CResponse.okResp p _ _ => p.length

-- ## Helper lemmas

theorem mapGet_of_any_eq_false {α : Type} {m : List (Int × α)} {k : Int}
    (h : m.any (fun p => p.1 = k) = false) : mapGet m k = none := by
  have h2 : ∀ p ∈ m, ¬(p.1 = k) := by
    intro p hp
    have := List.any_eq_false.mp h p hp
    simpa using this
  simp only [mapGet]
  rw [List.find?_eq_none.mpr (fun p hp => by simpa using h2 p hp)]
  rfl

theorem mapGet_map_replace_self {α : Type} {m : List (Int × α)} {k : Int} (v : α)
    (h : m.any (fun p => p.1 = k) = true) :
    mapGet (m.map (fun p => if p.1 = k then (k, v) else p)) k = some v := by
  induction m with
  | nil => simp at h
  | cons p ps ih =>
    by_cases hp : p.1 = k
    · simp [mapGet, List.find?, hp]
    · have hps : ps.any (fun q => q.1 = k) = true := by
        simp only [List.any_cons] at h
        simpa [hp] using h
      simp only [List.map_cons, hp, if_false]
      simpa [mapGet, List.find?, hp] using ih hps

theorem mapGet_map_replace_other {α : Type} {m : List (Int × α)} {k k2 : Int} (v : α)
    (hk : k2 ≠ k) :
    mapGet (m.map (fun p => if p.1 = k then (k, v) else p)) k2 = mapGet m k2 := by
  induction m with
  | nil => rfl
  | cons p ps ih =>
    by_cases hp : p.1 = k
    · have h1 : ¬((k, v).1 = k2) := by simpa using (Ne.symm hk)
      have h2 : ¬(p.1 = k2) := by rw [hp]; exact Ne.symm hk
      simp only [List.map_cons, hp, if_true]
      simpa [mapGet, List.find?, h1, h2] using ih
    · have hmap : (if p.1 = k then (k, v) else p) = p := by simp [hp]
      by_cases hpk2 : p.1 = k2
      · simp only [List.map_cons, hmap]
        simp [mapGet, List.find?, hpk2]
      · simp only [List.map_cons, hmap]
        simpa [mapGet, List.find?, hpk2] using ih

theorem mapGet_append_single_self {α : Type} {m : List (Int × α)} {k : Int} (v : α)
    (h : m.any (fun p => p.1 = k) = false) :
    mapGet (m ++ [(k, v)]) k = some v := by
  have hnone : m.find? (fun p => p.1 = k) = none := by
    apply List.find?_eq_none.mpr
    intro p hp
    simpa using List.any_eq_false.mp h p hp
  simp [mapGet, List.find?_append, hnone, List.find?]

theorem mapGet_append_single_other {α : Type} {m : List (Int × α)} {k k2 : Int} (v : α)
    (hk : k2 ≠ k) :
    mapGet (m ++ [(k, v)]) k2 = mapGet m k2 := by
  have h1 : ([(k, v)].find? (fun p => p.1 = k2)) = none := by
    simp [List.find?, Ne.symm hk]
  simp [mapGet, List.find?_append, h1]

theorem mapGet_mapSet {α : Type} (m : List (Int × α)) (k k2 : Int) (v : α) :
    mapGet (mapSet m k v) k2 = if k2 = k then some v else mapGet m k2 := by
  by_cases hany : m.any (fun p => p.1 = k)
  · simp only [mapSet, hany, if_true]
    by_cases hk : k2 = k
    · subst hk
      simp [mapGet_map_replace_self v hany]
    · simp [hk, mapGet_map_replace_other v hk]
  · have hf : m.any (fun p => p.1 = k) = false := Bool.eq_false_iff.mpr hany
    simp only [mapSet, hf, Bool.false_eq_true, if_false]
    by_cases hk : k2 = k
    · subst hk
      simp [mapGet_append_single_self v hf]
    · simp [hk, mapGet_append_single_other v hk]

-- ## Claim C10: getBufferStats on an empty buffer

/-- C10: when the Recent Window Buffer is empty, `getBufferStats` returns
`bufferSize` 0 with `oldestBlock = Math.min()` = positive infinity and
`newestBlock = Math.max()` = negative infinity — the non-finite sentinel
values of `Math.min`/`Math.max` over an empty key set — and these fields are
part of the returned stats object, whatever the write buffer and the rest of
the state hold. -/
theorem c10_empty_buffer_stats (wb : List (Int × BlockData)) (db : List SRow)
    (lw : Int) :
    getBufferStats { buffer := [], writeBuffer := wb, db := db, lastWrite := lw } =
      { bufferSize := 0
        writeBufferSize := wb.length
        oldestBlock := JsNumber.posInf
        newestBlock := JsNumber.negInf
        lastWrite := lw } := rfl

/-- The predicted-only record of the end-to-end scenario: height 500,
confidence99 = 120.5. -/
def predictedBD : BlockData :=
  { blockNumber := 500, timestamp := "T0", baseFeePerGas := some 1,
    confidence99 := some (241 / 2) }

/-- The actual-only record of the end-to-end scenario: height 500,
actual price 118.0. -/
def actualBD : BlockData :=
  { blockNumber := 500, timestamp := "T1", seiGasPrice := some 118 }

-- ## Claim C7: flush atomicity and retention

theorem flushToDatabase_fail (st : BufState) (now : Int) :
    flushToDatabase st false now = st := by
  unfold flushToDatabase
  split
  · rfl
  · simp

/-- C7: `flushToDatabase` persists the staged writes as one all-or-nothing
transaction: on success (the transaction commits and every record binds) the
table holds the whole batch and the staged set is cleared; on a failed
transaction neither the table nor the staged set changes, so the same staged
writes are offered to the next flush attempt, and retrying a failed flush
produces exactly the state a directly successful flush would have. A batch
containing a record whose raw `baseFeePerGas` binding is undefined throws
inside the transaction whatever the environment does, so it too is retained
unchanged — never partially applied, never dropped. -/
theorem c7_flush_atomic_retention (st : BufState) (txOk : Bool) (now now2 : Int) :
    ((flushToDatabase st false now).db = st.db ∧
      (flushToDatabase st false now).writeBuffer = st.writeBuffer) ∧
    (st.writeBuffer ≠ [] → batchBindable st.writeBuffer = true →
      (flushToDatabase st true now).db = applyBatch st.db st.writeBuffer ∧
      (flushToDatabase st true now).writeBuffer = []) ∧
    (batchBindable st.writeBuffer = false →
      (flushToDatabase st txOk now).db = st.db ∧
      (flushToDatabase st txOk now).writeBuffer = st.writeBuffer) ∧
    flushToDatabase (flushToDatabase st false now) true now2 =
      flushToDatabase st true now2 := by
  refine ⟨?_, ?_, ?_, ?_⟩
  · rw [flushToDatabase_fail]
    exact ⟨rfl, rfl⟩
  · intro hne hbind
    have hempty : st.writeBuffer.isEmpty = false := by
      cases hwb : st.writeBuffer with
      | nil => exact absurd hwb hne
      | cons a l => simp
    constructor <;> simp [flushToDatabase, hempty, hbind]
  · intro hbindf
    unfold flushToDatabase
    rw [hbindf]
    split
    · exact ⟨rfl, rfl⟩
    · simp
  · rw [flushToDatabase_fail]

/-- Witness for C7 at a concrete one-record staged buffer whose record binds
(its `baseFeePerGas` is present). -/
theorem c7_flush_atomic_retention_witness :
    ({ writeBuffer := [(500, predictedBD)] } : BufState).writeBuffer ≠ [] ∧
    batchBindable [(500, predictedBD)] = true ∧
    (flushToDatabase { writeBuffer := [(500, predictedBD)] } true 7).db =
      applyBatch ({ writeBuffer := [(500, predictedBD)] } : BufState).db
        [(500, predictedBD)] ∧
    (flushToDatabase { writeBuffer := [(500, predictedBD)] } true 7).writeBuffer = [] := by
  refine ⟨by simp, rfl, ?_, ?_⟩
  · exact ((c7_flush_atomic_retention { writeBuffer := [(500, predictedBD)] } true 7 8).2.1
      (by simp) rfl).1
  · exact ((c7_flush_atomic_retention { writeBuffer := [(500, predictedBD)] } true 7 8).2.1
      (by simp) rfl).2

-- ## Claim C2: buffer put does not merge by height

/-- C2 fails on the code: ingesting the predicted record for height 500 sets
`confidence99 = 120.5` in the buffered entry, but the subsequent actual-only
`addBlock` for the same height replaces the entry wholesale — afterwards the
buffered entry's `confidence99` is unset (and only `seiGasPrice` is present),
so a previously set field regressed to unset and no buffered entry carries
both values. -/
theorem c2_counterexample :
    (mapGet (addBlock ({} : BufState) predictedBD 0 "Z").buffer 500).map
        (fun e => e.data.confidence99) = some (some (241 / 2)) ∧
    (mapGet (addBlock (addBlock ({} : BufState) predictedBD 0 "Z") actualBD 50 "Z").buffer
        500).map (fun e => e.data.confidence99) = some none ∧
    (mapGet (addBlock (addBlock ({} : BufState) predictedBD 0 "Z") actualBD 50 "Z").buffer
        500).map (fun e => e.data.seiGasPrice) = some (some 118) := by
  refine ⟨rfl, rfl, rfl⟩

/-- C2 amended: `addBlock` does not merge with a previously buffered record —
for every buffer state, the entry stored at the incoming record's height is
exactly the fresh record (with its timestamp defaulted when falsy and
`addedAt` stamped), every field the previous entry had and the new record
lacks being dropped; entries at other heights are untouched. -/
theorem c2_amended_addBlock_replaces (st : BufState) (b : BlockData) (now : Int)
    (nowTs : String) (k : Int) :
    mapGet (addBlock st b now nowTs).buffer k =
      if k = b.blockNumber
      then some ⟨{ b with timestamp := jsOrString b.timestamp nowTs }, now⟩
      else mapGet st.buffer k := by
  simp only [addBlock]
  exact mapGet_mapSet st.buffer b.blockNumber k _

-- ## Claim C1: Record Store upsert is a row replace, not a field-level merge

theorem find?_map_replace (db : List SRow) (r : SRow)
    (h : hasHeight db r.blockNumber = true) :
    (db.map (fun q => if q.blockNumber = r.blockNumber then r else q)).find?
      (fun q => q.blockNumber = r.blockNumber) = some r := by
  induction db with
  | nil => simp [hasHeight] at h
  | cons q qs ih =>
    by_cases hq : q.blockNumber = r.blockNumber
    · simp [List.find?, hq]
    · have hqs : hasHeight qs r.blockNumber = true := by
        simp only [hasHeight, List.any_eq_true, decide_eq_true_eq]
        have h2 : ∃ x ∈ q :: qs, x.blockNumber = r.blockNumber := by
          simpa [hasHeight, List.any_eq_true] using h
        rcases h2 with ⟨x, hx, hxr⟩
        rcases List.mem_cons.mp hx with hxq | hxqs
        · exact absurd (hxq ▸ hxr) hq
        · exact ⟨x, hxqs, hxr⟩
      simp only [List.map_cons, hq, if_false]
      rw [List.find?]
      simp only [hq, decide_eq_true_eq]
      simpa using ih hqs

theorem findRow_insertOrReplace (db : List SRow) (r : SRow) :
    findRow (insertOrReplace db r) r.blockNumber = some r := by
  by_cases h : hasHeight db r.blockNumber
  · simp only [insertOrReplace, h, if_true, findRow]
    exact find?_map_replace db r h
  · have hf : hasHeight db r.blockNumber = false := Bool.eq_false_iff.mpr h
    simp only [insertOrReplace, hf, Bool.false_eq_true, if_false, findRow]
    rw [List.find?_append]
    have hnone : db.find? (fun q => q.blockNumber = r.blockNumber) = none := by
      apply List.find?_eq_none.mpr
      intro q hq
      simpa using List.any_eq_false.mp hf q hq
    simp [hnone, List.find?]

theorem insertOrIgnore_of_hasHeight (db : List SRow) (r : SRow)
    (h : hasHeight db r.blockNumber = true) :
    insertOrIgnore db r = db := by
  simp [insertOrIgnore, h]

/-- A later predicted record for the same height 500 whose feed response
carried a different confidence set: only a 50% estimate this time, no
`confidence99`. Its `baseFeePerGas` is present, so the record binds and the
flush transaction really commits. -/
def predictedBD2 : BlockData :=
  { blockNumber := 500, timestamp := "T2", baseFeePerGas := some 2,
    confidence50 := some 95 }

/-- The row the flush binding produces for `predictedBD2`. -/
def predictedRow2 : SRow :=
  { blockNumber := 500, timestamp := "T2", baseFeePerGas := some 2,
    confidence50 := some 95 }

/-- C1 fails on the code: after a predicted record for height 500 with
`confidence99 = 120.5` is flushed, flushing a later predicted record for the
same height that carries only `confidence50 = 95` (both records bind — their
`baseFeePerGas` is present, so the transactions really commit) goes through
`INSERT OR REPLACE`, which replaces the whole row — afterwards `confidence99`
is NULL even though the second write did not mention it, so a previously
persisted column is nulled out rather than preserved. -/
theorem c1_counterexample :
    ((findRow (flushToDatabase { writeBuffer := [(500, predictedBD)] } true 1).db
        500).map (fun r => r.confidence99) = some (some (241 / 2))) ∧
    ((findRow
        (flushToDatabase
          { db := (flushToDatabase { writeBuffer := [(500, predictedBD)] } true 1).db,
            writeBuffer := [(500, predictedBD2)] } true 2).db
        500).map (fun r => r.confidence99) = some none) ∧
    ((findRow
        (flushToDatabase
          { db := (flushToDatabase { writeBuffer := [(500, predictedBD)] } true 1).db,
            writeBuffer := [(500, predictedBD2)] } true 2).db
        500).map (fun r => r.confidence50) = some (some 95)) := by
  have e99 : jsOrNull (some ((241 : ℚ) / 2)) = some ((241 : ℚ) / 2) := by
    rw [jsOrNull]
    rw [if_neg (by norm_num)]
  have e95 : jsOrNull (some (95 : ℚ)) = some (95 : ℚ) := by
    rw [jsOrNull]
    rw [if_neg (by norm_num)]
  refine ⟨?_, ?_, ?_⟩ <;>
    simp [predictedBD, predictedBD2, flushToDatabase, applyBatch, batchBindable,
      bindableBlock, insertOrReplace, hasHeight, findRow, rowOfBlock, jsOrNull,
      e99, e95, List.find?]

/-- C1 amended: the Record Store upsert used by the flush path is a whole-row
replace, not a field-level merge — whenever a staged record binds, after its
`INSERT OR REPLACE` the row at its height is exactly the row built from that
record alone (fields absent from the write becoming NULL), regardless of any
previously persisted fields. A record without `baseFeePerGas` (such as an
actual-only record) does not bind at all — the transaction throws and nothing
is persisted, so its fields are lost rather than merged. The predicted-poll
path's `INSERT OR IGNORE` leaves an existing row for the same height entirely
unchanged (the new fields are discarded). -/
theorem c1_amended_upsert_replaces_row (db : List SRow) (b : BlockData)
    (rr r : SRow) :
    (rowOfBlock b = some rr →
      rr.blockNumber = b.blockNumber ∧
      findRow (insertOrReplace db rr) b.blockNumber = some rr) ∧
    (b.baseFeePerGas = none → rowOfBlock b = none) ∧
    (hasHeight db r.blockNumber = true → insertOrIgnore db r = db) := by
  refine ⟨?_, ?_, insertOrIgnore_of_hasHeight db r⟩
  · intro hrow
    cases hfee : b.baseFeePerGas with
    | none =>
      simp only [rowOfBlock, hfee] at hrow
      cases hrow
    | some fee =>
      simp only [rowOfBlock, hfee] at hrow
      obtain rfl := Option.some.inj hrow
      exact ⟨rfl, findRow_insertOrReplace db _⟩
  · intro hfee
    simp [rowOfBlock, hfee]

/-- Witness for C1 amended: a bindable predicted record really replaces the
existing placeholder row at height 500 wholesale; the actual-only record does
not bind at all; and an ignore-insert for an occupied height is the
identity. -/
theorem c1_amended_upsert_replaces_row_witness :
    rowOfBlock predictedBD2 = some predictedRow2 ∧
    predictedRow2.blockNumber = predictedBD2.blockNumber ∧
    findRow (insertOrReplace [placeholderRow 500 "P"] predictedRow2)
      predictedBD2.blockNumber = some predictedRow2 ∧
    actualBD.baseFeePerGas = none ∧
    rowOfBlock actualBD = none ∧
    hasHeight [placeholderRow 500 "P"] (placeholderRow 500 "P").blockNumber = true ∧
    insertOrIgnore [placeholderRow 500 "P"] (placeholderRow 500 "P") =
      [placeholderRow 500 "P"] := by
  have e95 : jsOrNull (some (95 : ℚ)) = some (95 : ℚ) := by
    rw [jsOrNull]
    rw [if_neg (by norm_num)]
  have eNone : jsOrNull none = none := rfl
  have hrow : rowOfBlock predictedBD2 = some predictedRow2 := by
    simp [rowOfBlock, predictedBD2, predictedRow2, e95, eNone]
  refine ⟨hrow, ?_, ?_, rfl, ?_, rfl, ?_⟩
  · exact ((c1_amended_upsert_replaces_row [placeholderRow 500 "P"] predictedBD2
      predictedRow2 (placeholderRow 500 "P")).1 hrow).1
  · exact ((c1_amended_upsert_replaces_row [placeholderRow 500 "P"] predictedBD2
      predictedRow2 (placeholderRow 500 "P")).1 hrow).2
  · exact (c1_amended_upsert_replaces_row [placeholderRow 500 "P"] actualBD
      predictedRow2 (placeholderRow 500 "P")).2.1 rfl
  · exact (c1_amended_upsert_replaces_row [placeholderRow 500 "P"] predictedBD2
      predictedRow2 (placeholderRow 500 "P")).2.2 rfl

-- ## Claim C3: at most one row per height

theorem heights_insertOrReplace_of_hasHeight (db : List SRow) (r : SRow)
    (h : hasHeight db r.blockNumber = true) :
    heights (insertOrReplace db r) = heights db := by
  simp only [insertOrReplace, h, if_true, heights, List.map_map]
  apply List.map_congr_left
  intro q _
  by_cases hq : q.blockNumber = r.blockNumber
  · simp [hq]
  · simp [hq]

theorem heights_insertOrReplace_of_not_hasHeight (db : List SRow) (r : SRow)
    (h : hasHeight db r.blockNumber = false) :
    heights (insertOrReplace db r) = heights db ++ [r.blockNumber] := by
  simp [insertOrReplace, h, heights]

theorem heights_insertOrIgnore_of_hasHeight2 (db : List SRow) (r : SRow)
    (h : hasHeight db r.blockNumber = true) :
    heights (insertOrIgnore db r) = heights db := by
  simp [insertOrIgnore, h]

theorem heights_insertOrIgnore_of_not_hasHeight (db : List SRow) (r : SRow)
    (h : hasHeight db r.blockNumber = false) :
    heights (insertOrIgnore db r) = heights db ++ [r.blockNumber] := by
  simp [insertOrIgnore, h, heights]

theorem heights_updateSeiGasPrice (db : List SRow) (price : ℚ) (h : Int) :
    heights (updateSeiGasPrice db price h) = heights db := by
  simp only [updateSeiGasPrice, heights, List.map_map]
  apply List.map_congr_left
  intro q _
  by_cases hq : q.blockNumber = h
  · simp [hq]
  · simp [hq]

theorem not_mem_heights_of_hasHeight_false {db : List SRow} {h : Int}
    (hf : hasHeight db h = false) : h ∉ heights db := by
  intro hmem
  rcases List.mem_map.mp hmem with ⟨r, hr, hrh⟩
  exact absurd hrh (by simpa using List.any_eq_false.mp hf r hr)

theorem nodup_insertOrReplace {db : List SRow} (r : SRow)
    (hd : (heights db).Nodup) : (heights (insertOrReplace db r)).Nodup := by
  by_cases h : hasHeight db r.blockNumber
  · rw [heights_insertOrReplace_of_hasHeight db r h]
    exact hd
  · have hf : hasHeight db r.blockNumber = false := Bool.eq_false_iff.mpr h
    rw [heights_insertOrReplace_of_not_hasHeight db r hf]
    rw [List.nodup_append]
    exact ⟨hd, List.nodup_singleton _, by
      simpa using fun hmem => not_mem_heights_of_hasHeight_false hf hmem⟩

theorem nodup_insertOrIgnore {db : List SRow} (r : SRow)
    (hd : (heights db).Nodup) : (heights (insertOrIgnore db r)).Nodup := by
  by_cases h : hasHeight db r.blockNumber
  · rw [heights_insertOrIgnore_of_hasHeight2 db r h]
    exact hd
  · have hf : hasHeight db r.blockNumber = false := Bool.eq_false_iff.mpr h
    rw [heights_insertOrIgnore_of_not_hasHeight db r hf]
    rw [List.nodup_append]
    exact ⟨hd, List.nodup_singleton _, by
      simpa using fun hmem => not_mem_heights_of_hasHeight_false hf hmem⟩

theorem nodup_applyDbOp {db : List SRow} (op : DbOp)
    (hd : (heights db).Nodup) : (heights (applyDbOp db op)).Nodup := by
  cases op with
  | predictedInsert b =>
    rw [applyDbOp]
    cases rowOfBlock b with
    | none => exact hd
    | some r => exact nodup_insertOrIgnore _ hd
  | actualUpdate price h =>
    rw [applyDbOp, heights_updateSeiGasPrice]
    exact hd
  | backfillInsert h ts => exact nodup_insertOrIgnore _ hd
  | flushBatch batch =>
    rw [applyDbOp]
    by_cases hall : batch.all (fun b => bindableBlock b) = true
    · rw [if_pos hall]
      clear hall
      induction batch generalizing db with
      | nil => exact hd
      | cons b bs ih =>
        rw [List.foldl_cons]
        cases rowOfBlock b with
        | none => exact ih hd
        | some r => exact ih (nodup_insertOrReplace _ hd)
    · rw [if_neg hall]
      exact hd

theorem nodup_applyDbOps {db : List SRow} (ops : List DbOp)
    (hd : (heights db).Nodup) : (heights (applyDbOps db ops)).Nodup := by
  induction ops generalizing db with
  | nil => exact hd
  | cons op ops ih =>
    rw [applyDbOps, List.foldl_cons]
    exact ih (nodup_applyDbOp op hd)

/-- C3: every sequence of the repository's write operations — predicted-only
ignore-inserts, actual-only updates, backfill placeholder inserts and batched
replace-flushes, in any order — keeps the Record Store free of duplicate
heights: starting from the empty table, the heights column is always
duplicate-free, so no height ever has two rows. -/
theorem c3_at_most_one_row_per_height (ops : List DbOp) :
    (heights (applyDbOps [] ops)).Nodup :=
  nodup_applyDbOps ops (by simp [heights])

-- ## Claim C9: metrics monotonicity

/-- Metrics-tracker state: the `metrics` object plus the module-level
`lastProcessedBlock` variable consulted by `updateMetrics`. -/
structure MetState where
  metrics : Metrics := {}
  globalLast : Int := 0
deriving DecidableEq

/-- Every ingestion operation that touches the metrics counters: a
`updateMetrics(height, value)` call (with `setLast` saying whether the caller
is `pollSeiGasPrice`, which afterwards assigns the module-level
`lastProcessedBlock = currentBlock`), or one of the `metrics.apiErrors++`
statements in the catch branches and backfill error paths. -/
inductive IngestOp where
  | observe (h : Int) (v : Option ℚ) (now : Int) (setLast : Bool)
  | rpcError
deriving DecidableEq

/-- Apply one ingestion operation to the metrics state. -/
def ingestStep (s : MetState) (op : IngestOp) : MetState :=
  match op with
  | IngestOp.observe h v now setLast =>
    { metrics := updateMetrics s.metrics s.globalLast h v now
      globalLast := if setLast then h else s.globalLast }
  | IngestOp.rpcError =>
    { s with metrics := { s.metrics with apiErrors := s.metrics.apiErrors + 1 } }

/-- Apply a sequence of ingestion operations in order. -/
def applyIngest (s : MetState) (ops : List IngestOp) : MetState :=
  ops.foldl ingestStep s

theorem ingestStep_missedBlocks_le (s : MetState) (op : IngestOp) :
    s.metrics.missedBlocks ≤ (ingestStep s op).metrics.missedBlocks := by
  cases op with
  | observe h v now setLast =>
    simp only [ingestStep, updateMetrics]
    split
    · rename_i hgt
      omega
    · omega
  | rpcError => simp [ingestStep]

theorem ingestStep_apiErrors_le (s : MetState) (op : IngestOp) :
    s.metrics.apiErrors ≤ (ingestStep s op).metrics.apiErrors := by
  cases op with
  | observe h v now setLast => simp [ingestStep, updateMetrics]
  | rpcError => simp [ingestStep]

/-- C9: across every sequence of ingestion operations — `updateMetrics` calls
with arbitrary heights and values, interleaved with `apiErrors` increments —
the counters `missedBlocks` and `apiErrors` never decrease: no operation of
the metrics tracker decrements a counter. -/
theorem c9_metrics_monotone (s : MetState) (ops : List IngestOp) :
    s.metrics.missedBlocks ≤ (applyIngest s ops).metrics.missedBlocks ∧
    s.metrics.apiErrors ≤ (applyIngest s ops).metrics.apiErrors := by
  induction ops generalizing s with
  | nil => exact ⟨le_refl _, le_refl _⟩
  | cons op ops ih =>
    rw [applyIngest, List.foldl_cons]
    have hstep1 := ingestStep_missedBlocks_le s op
    have hstep2 := ingestStep_apiErrors_le s op
    have hrest := ih (ingestStep s op)
    rw [applyIngest] at hrest
    exact ⟨le_trans hstep1 hrest.1, le_trans hstep2 hrest.2⟩

-- ## Claims C5 and C6: gap detection, backfill, clamping

theorem hasHeight_iff_mem_heights {db : List SRow} {h : Int} :
    hasHeight db h = true ↔ h ∈ heights db := by
  simp [hasHeight, heights, List.any_eq_true, List.mem_map]

theorem hasHeight_insertOrIgnore_self (db : List SRow) (r : SRow) :
    hasHeight (insertOrIgnore db r) r.blockNumber = true := by
  unfold insertOrIgnore
  by_cases hc : hasHeight db r.blockNumber
  · rw [if_pos hc]
    exact hc
  · rw [if_neg hc]
    simp [hasHeight, List.any_append]

theorem hasHeight_insertOrIgnore_mono {db : List SRow} (r : SRow) {h : Int}
    (hh : hasHeight db h = true) : hasHeight (insertOrIgnore db r) h = true := by
  unfold insertOrIgnore
  split
  · exact hh
  · simp [hasHeight, List.any_append]
    left
    simpa [hasHeight] using hh

theorem hasHeight_insertOrIgnore_cases {db : List SRow} {r : SRow} {h : Int}
    (hh : hasHeight (insertOrIgnore db r) h = true) :
    hasHeight db h = true ∨ r.blockNumber = h := by
  unfold insertOrIgnore at hh
  by_cases hc : hasHeight db r.blockNumber
  · rw [if_pos hc] at hh
    exact Or.inl hh
  · rw [if_neg hc] at hh
    simp only [hasHeight, List.any_append, Bool.or_eq_true] at hh
    rcases hh with h1 | h2
    · exact Or.inl h1
    · right
      simpa using h2

theorem hasHeight_updateSei_iff (db : List SRow) (p : ℚ) (h2 h : Int) :
    hasHeight (updateSeiGasPrice db p h2) h = true ↔ hasHeight db h = true := by
  rw [hasHeight_iff_mem_heights, hasHeight_iff_mem_heights, heights_updateSeiGasPrice]

theorem backfillStep_fst_mono (lookup : Int → RpcResult) (acc : List SRow × Int)
    (a : Int) {h : Int} (hh : hasHeight acc.1 h = true) :
    hasHeight (backfillStep lookup acc a).1 h = true := by
  unfold backfillStep
  cases lookup a with
  | found ts => exact hasHeight_insertOrIgnore_mono _ hh
  | missing => exact hh
  | failed => exact hh

theorem backfillFold_fst_mono (lookup : Int → RpcResult) (hs : List Int)
    (acc : List SRow × Int) {h : Int} (hh : hasHeight acc.1 h = true) :
    hasHeight ((hs.foldl (backfillStep lookup) acc).1) h = true := by
  induction hs generalizing acc with
  | nil => exact hh
  | cons a as ih =>
    rw [List.foldl_cons]
    exact ih _ (backfillStep_fst_mono lookup acc a hh)

theorem backfillFold_covers (lookup : Int → RpcResult) (hs : List Int)
    (acc : List SRow × Int)
    (hsucc : ∀ x ∈ hs, ∃ ts, lookup x = RpcResult.found ts) :
    ∀ x ∈ hs, hasHeight ((hs.foldl (backfillStep lookup) acc).1) x = true := by
  induction hs generalizing acc with
  | nil =>
    intro x hx
    simp at hx
  | cons a as ih =>
    intro x hx
    rw [List.foldl_cons]
    rcases List.mem_cons.mp hx with rfl | hxas
    · rcases hsucc x (List.mem_cons_self _ _) with ⟨ts, hts⟩
      apply backfillFold_fst_mono
      unfold backfillStep
      rw [hts]
      exact hasHeight_insertOrIgnore_self _ _
    · exact ih _ (fun y hy => hsucc y (List.mem_cons_of_mem _ hy)) x hxas

theorem backfillFold_subset (lookup : Int → RpcResult) (hs : List Int)
    (acc : List SRow × Int) (h : Int)
    (hh : hasHeight ((hs.foldl (backfillStep lookup) acc).1) h = true) :
    hasHeight acc.1 h = true ∨ h ∈ hs := by
  induction hs generalizing acc with
  | nil => exact Or.inl hh
  | cons a as ih =>
    rw [List.foldl_cons] at hh
    rcases ih _ hh with hstep | hmem
    · unfold backfillStep at hstep
      cases hl : lookup a
      all_goals rw [hl] at hstep
      · rcases hasHeight_insertOrIgnore_cases hstep with h1 | h2
        · exact Or.inl h1
        · right
          rw [← h2]
          exact List.mem_cons_self _ _
      · exact Or.inl hstep
      · exact Or.inl hstep
    · exact Or.inr (List.mem_cons_of_mem _ hmem)

theorem mem_missedRange {fromB toB h : Int} :
    h ∈ missedRange fromB toB ↔ fromB < h ∧ h < toB := by
  simp only [missedRange, List.mem_map, List.mem_range]
  constructor
  · rintro ⟨i, hi, rfl⟩
    omega
  · intro hb
    exact ⟨(h - fromB - 1).toNat, by omega, by omega⟩

theorem missedRange_length (fromB toB : Int) :
    (missedRange fromB toB).length = (toB - fromB - 1).toNat := by
  rw [missedRange, List.length_map, List.length_range]

/-- C5: one successful authoritative poll cycle (unclamped variant) with
previously processed height `prev = st.lastProcessedBlock` and newly observed
height `curr`. If `curr > prev + 1`: `missedBlocks` grows by exactly
`curr - prev - 1`, which is exactly the number of heights strictly between
`prev` and `curr`; no height outside that open interval is added to the
store; and when every out-of-band lookup succeeds, every missed height has a
(placeholder, timestamp-bearing) row afterwards. If `curr ≤ prev`: no missed
height is counted and the store's height set is unchanged — a no-op, not an
error. -/
theorem c5_gap_classification (st : PollState) (curr : Int) (gas : ℚ)
    (lookup : Int → RpcResult) (due : Bool) (now : Int) :
    (curr > st.lastProcessedBlock + 1 →
      (pollSeiStep false st curr gas lookup due now).metrics.missedBlocks =
        st.metrics.missedBlocks + (curr - st.lastProcessedBlock - 1) ∧
      ((missedRange st.lastProcessedBlock curr).length : Int) =
        curr - st.lastProcessedBlock - 1 ∧
      (∀ h, hasHeight (pollSeiStep false st curr gas lookup due now).db h = true →
        hasHeight st.db h = true ∨ (st.lastProcessedBlock < h ∧ h < curr)) ∧
      ((∀ h ∈ missedRange st.lastProcessedBlock curr,
          ∃ ts, lookup h = RpcResult.found ts) →
        ∀ h, st.lastProcessedBlock < h → h < curr →
          hasHeight (pollSeiStep false st curr gas lookup due now).db h = true)) ∧
    (curr ≤ st.lastProcessedBlock →
      (pollSeiStep false st curr gas lookup due now).metrics.missedBlocks =
        st.metrics.missedBlocks ∧
      heights (pollSeiStep false st curr gas lookup due now).db = heights st.db) := by
  constructor
  · intro hgt
    have hdb : (pollSeiStep false st curr gas lookup due now).db =
        (if due then
          updateSeiGasPrice
            (backfillMissedBlocks lookup st.db st.lastProcessedBlock curr).1 gas curr
        else (backfillMissedBlocks lookup st.db st.lastProcessedBlock curr).1) := by
      simp [pollSeiStep, hgt]
    refine ⟨?_, ?_, ?_, ?_⟩
    · simp [pollSeiStep, hgt, updateMetrics]
    · rw [missedRange_length]
      omega
    · intro h hh
      rw [hdb] at hh
      have hbf : hasHeight
          (backfillMissedBlocks lookup st.db st.lastProcessedBlock curr).1 h = true := by
        cases due with
        | false => simpa using hh
        | true =>
          rw [if_pos rfl] at hh
          exact (hasHeight_updateSei_iff _ _ _ _).mp hh
      rw [backfillMissedBlocks] at hbf
      rcases backfillFold_subset lookup _ _ h hbf with h1 | h2
      · exact Or.inl h1
      · exact Or.inr (mem_missedRange.mp h2)
    · intro hsucc h h1 h2
      have hmem : h ∈ missedRange st.lastProcessedBlock curr :=
        mem_missedRange.mpr ⟨h1, h2⟩
      have hbf : hasHeight
          (backfillMissedBlocks lookup st.db st.lastProcessedBlock curr).1 h = true := by
        rw [backfillMissedBlocks]
        exact backfillFold_covers lookup _ _ hsucc h hmem
      rw [hdb]
      cases due with
      | false => simpa using hbf
      | true =>
        rw [if_pos rfl]
        exact (hasHeight_updateSei_iff _ _ _ _).mpr hbf
  · intro hle
    have hngt : ¬(curr > st.lastProcessedBlock + 1) := by omega
    constructor
    · simp [pollSeiStep, hngt, updateMetrics]
    · have hdb : (pollSeiStep false st curr gas lookup due now).db =
          (if due then updateSeiGasPrice st.db gas curr else st.db) := by
        simp [pollSeiStep, hngt]
      rw [hdb]
      cases due with
      | false => simp
      | true =>
        rw [if_pos rfl]
        exact heights_updateSeiGasPrice _ _ _

/-- Witness for C5: previous height 100, observed height 105, all lookups
succeeding — exactly 4 missed heights are counted and heights 101..104 all
have rows afterwards. -/
theorem c5_gap_classification_witness :
    (105 : Int) > 100 + 1 ∧
    (pollSeiStep false { lastProcessedBlock := 100 } 105 2
        (fun _ => RpcResult.found "ts") true 0).metrics.missedBlocks =
      ({} : Metrics).missedBlocks + (105 - 100 - 1) ∧
    (∀ h, (100 : Int) < h → h < 105 →
      hasHeight (pollSeiStep false { lastProcessedBlock := 100 } 105 2
        (fun _ => RpcResult.found "ts") true 0).db h = true) := by
  refine ⟨by norm_num, ?_, ?_⟩
  · exact ((c5_gap_classification { lastProcessedBlock := 100 } 105 2
      (fun _ => RpcResult.found "ts") true 0).1 (by norm_num)).1
  · exact ((c5_gap_classification { lastProcessedBlock := 100 } 105 2
      (fun _ => RpcResult.found "ts") true 0).1 (by norm_num)).2.2.2
      (fun h _ => ⟨"ts", rfl⟩)

/-- C6: one successful authoritative poll cycle of the clamped variant with a
gap wider than the configured maximum of 10000 blocks. Only heights in the
most recent window `(curr - 10000, curr)` of the gap can gain a row (the
older remainder is not individually reconciled), the per-pass backfill list
stays within 10000 heights, and the cycle's `missedBlocks` increment is the
full `curr - prev - 1` — the length of the backfilled window plus the length
of the clamped remainder — so the heights the clamp skips are still accounted
in the metrics rather than silently dropped. -/
theorem c6_clamped_backfill_accounting (st : PollState) (curr : Int) (gas : ℚ)
    (lookup : Int → RpcResult) (due : Bool) (now : Int)
    (hgap : curr - st.lastProcessedBlock > 10000) :
    (∀ h, hasHeight (pollSeiStep true st curr gas lookup due now).db h = true →
      hasHeight st.db h = true ∨ (curr - 10000 < h ∧ h < curr)) ∧
    (missedRange (clampFromBlock st.lastProcessedBlock curr) curr).length ≤ 10000 ∧
    (pollSeiStep true st curr gas lookup due now).metrics.missedBlocks =
      st.metrics.missedBlocks + (curr - st.lastProcessedBlock - 1) ∧
    curr - st.lastProcessedBlock - 1 =
      ((missedRange (curr - 10000) curr).length : Int) +
        ((missedRange st.lastProcessedBlock (curr - 10000 + 1)).length : Int) := by
  have hgt : curr > st.lastProcessedBlock + 1 := by omega
  have hclamp : clampFromBlock st.lastProcessedBlock curr = curr - 10000 := by
    rw [clampFromBlock, if_pos hgap]
  have hdb : (pollSeiStep true st curr gas lookup due now).db =
      (if due then
        updateSeiGasPrice
          (backfillMissedBlocksClamped lookup st.db st.lastProcessedBlock curr).1 gas curr
      else (backfillMissedBlocksClamped lookup st.db st.lastProcessedBlock curr).1) := by
    simp [pollSeiStep, hgt]
  refine ⟨?_, ?_, ?_, ?_⟩
  · intro h hh
    rw [hdb] at hh
    have hbf : hasHeight
        (backfillMissedBlocksClamped lookup st.db st.lastProcessedBlock curr).1 h =
          true := by
      cases due with
      | false => simpa using hh
      | true =>
        rw [if_pos rfl] at hh
        exact (hasHeight_updateSei_iff _ _ _ _).mp hh
    rw [backfillMissedBlocksClamped, hclamp, backfillMissedBlocks] at hbf
    rcases backfillFold_subset lookup _ _ h hbf with h1 | h2
    · exact Or.inl h1
    · exact Or.inr (mem_missedRange.mp h2)
  · rw [hclamp, missedRange_length]
    omega
  · simp [pollSeiStep, hgt, updateMetrics]
  · rw [missedRange_length, missedRange_length]
    omega

/-- Witness for C6: previous height 0, observed height 20000 — a 20000-block
gap exceeding the 10000 cap. -/
theorem c6_clamped_backfill_accounting_witness :
    (20000 : Int) - ({ lastProcessedBlock := 0 } : PollState).lastProcessedBlock >
      10000 ∧
    (missedRange
        (clampFromBlock ({ lastProcessedBlock := 0 } : PollState).lastProcessedBlock
          20000) 20000).length ≤ 10000 ∧
    (pollSeiStep true { lastProcessedBlock := 0 } 20000 3
        (fun _ => RpcResult.found "ts") false 0).metrics.missedBlocks =
      ({} : Metrics).missedBlocks + (20000 - 0 - 1) := by
  refine ⟨by norm_num, ?_, ?_⟩
  · exact (c6_clamped_backfill_accounting { lastProcessedBlock := 0 } 20000 3
      (fun _ => RpcResult.found "ts") false 0 (by norm_num)).2.1
  · exact (c6_clamped_backfill_accounting { lastProcessedBlock := 0 } 20000 3
      (fun _ => RpcResult.found "ts") false 0 (by norm_num)).2.2.1

-- ## Claim C4: timeframe validation

/-- C4 fails on the code: the caching chart-data handlers accept the
unrecognized timeframe `2w` and silently fall back to the 24h window —
`timeRanges['2w']` is undefined, yet the request is served (there is no
client-error branch in these handlers) with exactly the cutoff the `24h`
request uses. -/
theorem c4_counterexample :
    timeRangesMs "2w" = none ∧
    (chartDataAB (fun _ => "") [] 0 "2w").usedDurationMs = 24 * 60 * 60 * 1000 ∧
    (chartDataAB (fun _ => "") [] 0 "2w").usedDurationMs =
      (chartDataAB (fun _ => "") [] 0 "24h").usedDurationMs := by
  refine ⟨by decide, by decide, by decide⟩

/-- C4 amended: the three chart-data handlers disagree. The BlockBuffer
variant validates: a timeframe is recognized exactly when it is one of
1h/6h/12h/24h/72h/7d, an unrecognized one is rejected with a 400 client error
before any data access, and a recognized one is never rejected. The two
caching variants never reject: an unrecognized timeframe is silently served
with the default 24h window. -/
theorem c4_amended_validation (iso : Int → String) (st : BufState) (now : Int)
    (range : String) :
    ((timeRangesMs range).isSome ↔
      range ∈ ["1h", "6h", "12h", "24h", "72h", "7d"]) ∧
    (timeRangesMs range = none →
      chartDataC iso st now range = CResponse.badRequest) ∧
    (timeRangesMs range ≠ none →
      chartDataC iso st now range ≠ CResponse.badRequest) ∧
    (timeRangesMs range = none →
      (chartDataAB iso st.db now range).usedDurationMs = 24 * 60 * 60 * 1000) := by
  refine ⟨?_, ?_, ?_, ?_⟩
  · unfold timeRangesMs
    split_ifs with h1 h2 h3 h4 h5 h6 <;> simp_all
  · intro h
    simp [chartDataC, h]
  · intro h
    rcases hopt : timeRangesMs range with _ | d
    · exact absurd hopt h
    · simp only [chartDataC, hopt]
      split <;> simp
  · intro h
    unfold chartDataAB
    simp only [h, Option.getD_none]
    split <;> rfl

/-- Witness for C4 amended: `2w` is rejected by the validating variant and
silently served with the 24h window by the others; `1h` is not rejected. -/
theorem c4_amended_validation_witness :
    timeRangesMs "2w" = none ∧
    chartDataC (fun _ => "") {} 0 "2w" = CResponse.badRequest ∧
    (chartDataAB (fun _ => "") ({} : BufState).db 0 "2w").usedDurationMs =
      24 * 60 * 60 * 1000 ∧
    timeRangesMs "1h" ≠ none ∧
    chartDataC (fun _ => "") {} 0 "1h" ≠ CResponse.badRequest := by
  refine ⟨by decide, ?_, ?_, by decide, ?_⟩
  · exact (c4_amended_validation (fun _ => "") {} 0 "2w").2.1 (by decide)
  · exact (c4_amended_validation (fun _ => "") {} 0 "2w").2.2.2 (by decide)
  · exact (c4_amended_validation (fun _ => "") {} 0 "1h").2.2.1 (by decide)

-- ## Claim C8: bounded deterministic downsampling

/-- Recursive characterization of `sampleData`: keep the elements whose
running index is a multiple of `r`, starting the count at `i`. -/
def idxFilter {α : Type} (r : Nat) : Nat → List α → List α
  | _, [] => []
  | i, x :: xs =>
    if i % r = 0 then x :: idxFilter r (i + 1) xs else idxFilter r (i + 1) xs

theorem enumFrom_filter_eq_idxFilter {α : Type} (r : Nat) (l : List α) :
    ∀ n : Nat,
      ((List.enumFrom n l).filter (fun p => p.1 % r = 0)).map Prod.snd =
        idxFilter r n l := by
  induction l with
  | nil => intro n; rfl
  | cons x xs ih =>
    intro n
    by_cases hn : n % r = 0
    · simp [List.enumFrom, List.filter, hn, idxFilter, ih]
    · simp [List.enumFrom, List.filter, hn, idxFilter, ih]

theorem idxFilter_get? {α : Type} (r : Nat) (hr : 0 < r) :
    ∀ (l : List α) (i k : Nat),
      (idxFilter r i l).get? k = l.get? ((r - i % r) % r + k * r) := by
  intro l
  induction l with
  | nil => intro i k; simp [idxFilter]
  | cons x xs ih =>
    intro i k
    by_cases hi : i % r = 0
    · have hp0 : (r - i % r) % r = 0 := by rw [hi, Nat.sub_zero, Nat.mod_self]
      have hp1 : (r - (i + 1) % r) % r = r - 1 := by
        have h1 : (i + 1) % r = 1 % r := by
          rw [Nat.add_mod, hi, Nat.zero_add]
          exact Nat.mod_mod_of_dvd _ dvd_rfl
        rcases Nat.lt_or_ge r 2 with h2 | h2
        · have hr1 : r = 1 := by omega
          subst hr1
          omega
        · have h3 : 1 % r = 1 := Nat.mod_eq_of_lt (by omega)
          rw [h1, h3]
          exact Nat.mod_eq_of_lt (by omega)
      rw [hp0]
      have hstep : idxFilter r i (x :: xs) = x :: idxFilter r (i + 1) xs := by
        simp [idxFilter, hi]
      cases k with
      | zero =>
        rw [hstep]
        simp
      | succ k =>
        rw [hstep]
        have hidx : 0 + (k + 1) * r = (r - 1 + k * r) + 1 := by
          have h4 : (k + 1) * r = k * r + r := by ring
          omega
        rw [hidx]
        have hcons1 : (x :: idxFilter r (i + 1) xs).get? (k + 1) =
            (idxFilter r (i + 1) xs).get? k := rfl
        have hcons2 : (x :: xs).get? (r - 1 + k * r + 1) =
            xs.get? (r - 1 + k * r) := rfl
        rw [hcons1, hcons2, ih (i + 1) k, hp1]
    · have hilt : i % r < r := Nat.mod_lt _ hr
      have hige : 1 ≤ i % r := by omega
      have hpi : (r - i % r) % r = r - i % r := Nat.mod_eq_of_lt (by omega)
      have key : (r - (i + 1) % r) % r = r - i % r - 1 := by
        rcases Nat.lt_or_ge (i % r) (r - 1) with hlt | hge
        · have hr3 : i % r + 1 < r := by omega
          have h1 : (i + 1) % r = i % r + 1 := by
            conv_lhs => rw [Nat.add_mod]
            have h5 : 1 % r = 1 := Nat.mod_eq_of_lt (by omega)
            rw [h5]
            exact Nat.mod_eq_of_lt hr3
          rw [h1]
          exact Nat.mod_eq_of_lt (by omega)
        · have heq : i % r = r - 1 := by omega
          have hr2 : 2 ≤ r := by omega
          have h1 : (i + 1) % r = 0 := by
            conv_lhs => rw [Nat.add_mod, heq]
            have h5 : 1 % r = 1 := Nat.mod_eq_of_lt (by omega)
            rw [h5]
            have h6 : r - 1 + 1 = r := by omega
            rw [h6, Nat.mod_self]
          rw [h1, Nat.sub_zero, Nat.mod_self]
          omega
      have hstep : idxFilter r i (x :: xs) = idxFilter r (i + 1) xs := by
        simp [idxFilter, hi]
      rw [hstep, ih (i + 1) k, key, hpi]
      have hsplit : r - i % r + k * r = (r - i % r - 1 + k * r) + 1 := by omega
      rw [hsplit]
      rfl

theorem sampleRate_pos (timeframe : String) : 0 < sampleRate timeframe := by
  unfold sampleRate samplingRates
  split_ifs <;> simp

theorem sampleData_get? (data : List Point) (timeframe : String) (k : Nat) :
    (sampleData data timeframe).get? k = data.get? (k * sampleRate timeframe) := by
  have h1 : sampleData data timeframe = idxFilter (sampleRate timeframe) 0 data := by
    rw [sampleData, List.enum]
    exact enumFrom_filter_eq_idxFilter _ data 0
  rw [h1, idxFilter_get? _ (sampleRate_pos timeframe) data 0 k]
  congr 1
  have h2 : (0 : Nat) % sampleRate timeframe = 0 := Nat.zero_mod _
  rw [h2, Nat.sub_zero, Nat.mod_self, Nat.zero_add]

theorem sampleData_length_le (data : List Point) (timeframe : String) :
    (sampleData data timeframe).length ≤ data.length := by
  rw [sampleData, List.length_map]
  calc (List.filter (fun p => decide (p.1 % sampleRate timeframe = 0))
          data.enum).length
      ≤ data.enum.length := List.length_filter_le _ _
    _ = data.length := List.enum_length

theorem orderedInsert_length (r : SRow) (l : List SRow) :
    (orderedInsert r l).length = l.length + 1 := by
  induction l with
  | nil => rfl
  | cons x xs ih =>
    rw [orderedInsert]
    split
    · simp
    · simp only [List.length_cons, ih]

theorem sortByHeight_length (l : List SRow) :
    (sortByHeight l).length = l.length := by
  induction l with
  | nil => rfl
  | cons x xs ih =>
    rw [sortByHeight, List.foldr_cons]
    rw [show (List.foldr orderedInsert [] xs) = sortByHeight xs from rfl]
    rw [orderedInsert_length, ih]
    rfl

theorem not_string_lt_empty (s : String) : ¬(s < "") := by
  rw [String.lt_iff_toList_lt]
  have h3 : ("" : String).toList = [] := rfl
  rw [h3]
  exact List.Lex.not_nil_right _ _

theorem tsGe_empty (ts : String) : tsGe ts "" = true := by
  unfold tsGe
  rw [decide_eq_false (not_string_lt_empty ts)]
  rfl

/-- C8 amended: the caching chart-data handlers are bounded and
deterministic — for every recognized timeframe the returned predicted and
actual series have at most 10000 points (the SQL LIMIT), and the sampler's
stride is index-based: the k-th returned point is exactly the input point at
index k·rate, so the output is a deterministic function of the stored rows.
The BlockBuffer-variant handler, however, applies no sampling and no limit
(see its counterexample). -/
theorem c8_amended_bounded_deterministic (iso : Int → String) (db : List SRow)
    (now : Int) (range : String)
    (hr : range ∈ ["1h", "6h", "12h", "24h", "72h", "7d"]) :
    (chartDataAB iso db now range).predictedData.length ≤ 10000 ∧
    (chartDataAB iso db now range).seiGasPriceData.length ≤ 10000 ∧
    (∀ (data : List Point) (k : Nat),
      (sampleData data range).get? k = data.get? (k * sampleRate range)) := by
  have hrows : ∀ (f : SRow → Point),
      ((((sortByHeight (db.filter
          (fun r => tsGe r.timestamp (iso (now -
            (timeRangesMs range).getD (24 * 60 * 60 * 1000)))))).take 10000).map
        f).length) ≤ 10000 := by
    intro f
    rw [List.length_map]
    exact le_trans (List.length_take_le _ _) (le_refl _)
  refine ⟨?_, ?_, fun data k => sampleData_get? data range k⟩
  · simp only [chartDataAB]
    split
    · exact hrows predPoint
    · exact le_trans (sampleData_length_le _ _) (hrows predPoint)
  · simp only [chartDataAB]
    split
    · exact hrows actualPoint
    · exact le_trans (sampleData_length_le _ _) (hrows actualPoint)

/-- Witness for C8 amended at timeframe 24h. -/
theorem c8_amended_bounded_deterministic_witness :
    ("24h" ∈ ["1h", "6h", "12h", "24h", "72h", "7d"]) ∧
    (chartDataAB (fun _ => "") [] 0 "24h").predictedData.length ≤ 10000 ∧
    (∀ k : Nat, (sampleData [] "24h").get? k = ([] : List Point).get? (k * sampleRate "24h")) := by
  refine ⟨by decide, ?_, ?_⟩
  · exact (c8_amended_bounded_deterministic (fun _ => "") [] 0 "24h" (by decide)).1
  · exact fun k =>
      (c8_amended_bounded_deterministic (fun _ => "") [] 0 "24h" (by decide)).2.2 [] k

/-- C8 fails on the BlockBuffer-variant handler: with 10001 stored rows inside
the window, the 24h query of that variant returns all 10001 points — it
applies neither `sampleData` nor a row limit, so the returned series length
exceeds the 10000-row ceiling the other handlers enforce. -/
theorem c8_counterexample :
    cPredLength (chartDataC (fun _ => "")
        { db := List.replicate 10001 (placeholderRow 1 "T") } 0 "24h") = 10001 ∧
    10000 < 10001 := by
  constructor
  · have ht : timeRangesMs "24h" = some 86400000 := by decide
    simp only [chartDataC, ht]
    rw [if_neg (by decide : ¬("24h" = "1h"))]
    simp only [cPredLength]
    have hfilter : (List.replicate 10001 (placeholderRow 1 "T")).filter
        (fun r => tsGe r.timestamp ((fun _ : Int => "") (0 - 86400000))) =
          List.replicate 10001 (placeholderRow 1 "T") := by
      apply List.filter_eq_self.mpr
      intro a _
      exact tsGe_empty _
    rw [hfilter, List.length_map, sortByHeight_length, List.length_replicate]
  · decide
